import Mathlib

/-!
Verification of the Terabox relay bot (`bot.py`).

This file gives a shallow embedding of the bot's pure logic:
JSON values, Python truthiness, the MarkdownV2 escaping helper, the
share-link extractor, the three provider-API response parsers, the
sequential fallback cascade of `handle_terabox_link`, the delivery /
delivery-failure paths, and the webhook endpoint's status handling.
Outbound HTTP is modelled by an abstract outcome (a transport error, or a
status code together with an optionally JSON-decodable body); the Telegram
send step is modelled by an abstract outcome as well.  Machine-level
concerns (event loops, logging, the real network) are outside the
embedding.
-/

namespace Terabot

/-- JSON values, as decoded by `response.json()` in `bot.py`.  Numbers are
modelled as integers; no claim depends on float payloads. -/
inductive Json where
  | null
  | bool (b : Bool)
  | num (n : Int)
  | str (s : String)
  | arr (items : List Json)
  | obj (fields : List (String × Json))

/-- Python truthiness of a JSON value (`if data.get(...)` style tests):
`None`, `False`, `0`, `""`, `[]` and `` \x7b\x7d `` are falsy. -/
def truthy : Json → Bool
  | .null => false
  | .bool b => b
  | .num n => !(n == 0)
  | .str s => !(s == "")
  | .arr items => !items.isEmpty
  | .obj fields => !fields.isEmpty

/-- `d.get(k)` on a Python dict: the stored value, or `None` when the key
is absent. -/
def jGetD (fields : List (String × Json)) (k : String) : Json :=
  (List.lookup k fields).getD .null

/-- `d.get(k, dflt)` on a Python dict: the default applies only when the
key is missing, not when the stored value is `None`. -/
def jGetDef (fields : List (String × Json)) (k : String) (dflt : Json) : Json :=
  (List.lookup k fields).getD dflt

/-- Python `==` between a JSON value and a string literal: true exactly for
an equal string (values of other types never equal a `str`). -/
def jEqStr : Json → String → Bool
  | .str s, t => s == t
  | _, _ => false

/-- Python `a or b`: `a` when `a` is truthy, otherwise `b`. -/
def pyOr (a b : Json) : Json :=
  if truthy a then a else b

/-- Concatenation of the images of each character (character-level
`flat_map`), used to model Python `str.replace` with one-character
patterns. -/
def concatMapC (f : Char → List Char) : List Char → List Char
  | [] => []
  | c :: rest => f c ++ concatMapC f rest

/-- Python `s.replace(pat, rep)` where `pat` is a single character:
every occurrence of that character is substituted. -/
def replaceCharL (l : List Char) (c : Char) (rep : List Char) : List Char :=
  concatMapC (fun a => if a = c then rep else [a]) l

/-- String wrapper for `replaceCharL`. -/
def pyReplaceChar (s : String) (c : Char) (rep : String) : String :=
  ⟨replaceCharL s.data c rep.data⟩

/-- The characters after the backslash in the `special_chars` list of
`escape_markdown_v2` in `bot.py`, in source order. -/
def specialTail : List Char :=
  ['_', '*', '[', ']', '(', ')', '~', '\x60', '>', '#', '+', '-', '=',
   '|', '\x7b', '\x7d', '.', '!']

/-- The `special_chars` list of `escape_markdown_v2` in `bot.py`, in source
order: backslash first, then the rest. -/
def special_chars : List Char :=
  '\\' :: specialTail

/-- `escape_markdown_v2` from `bot.py`: fold `text.replace(c, '\' + c)`
over `special_chars` in order. -/
def escape_markdown_v2 (text : String) : String :=
  special_chars.foldl (fun t c => pyReplaceChar t c ⟨['\\', c]⟩) text

/-- The per-character escaping the spec describes: each reserved character
is prefixed with exactly one backslash, other characters pass through. -/
def escSpecChar (c : Char) : List Char :=
  if c ∈ special_chars then ['\\', c] else [c]

/-- Python `pat in s` for strings: substring containment. -/
def containsSub : List Char → List Char → Bool
  | [], pat => pat.isEmpty
  | s@(_ :: rest), pat => pat.isPrefixOf s || containsSub rest pat

/-- Python `s.lower()`.  The reserved-marker comparison in `bot.py` only
involves ASCII letters, for which `Char.toLower` agrees with Python. -/
def pyLower (s : String) : String :=
  ⟨s.data.map Char.toLower⟩

/-- The outage-marker substring checked by the cascade in
`handle_terabox_link`. -/
def markerStr : String := "download feature is currently down"

/-- A character of the share-token class `[a-zA-Z0-9_-]` of the extractor
regex. -/
def tokenChar (c : Char) : Bool :=
  c.isAlpha || c.isDigit || c == '_' || c == '-'

/-- Literal fragment `https://` of the extractor regex. -/
def schemeHttps : List Char := "https://".data

/-- Literal fragment `http://` of the extractor regex. -/
def schemeHttp : List Char := "http://".data

/-- Literal fragment `www.` of the extractor regex. -/
def wwwDot : List Char := "www.".data

/-- Host spelling `terabox.com` accepted by the first regex alternative. -/
def hostA0 : List Char := "terabox.com".data

/-- Host spelling `teraboxapp.com` accepted by the first regex
alternative (the greedy `(?:app)?` branch). -/
def hostA1 : List Char := "teraboxapp.com".data

/-- Host spelling `1024terabox.com` of the second regex alternative. -/
def hostB : List Char := "1024terabox.com".data

/-- Literal fragment `/s/` of the extractor regex. -/
def pathS : List Char := "/s/".data

/-- Match `<host>/s/<token>+` at the start of `l`, taking the maximal
token run (the greedy `[a-zA-Z0-9_-]+`); returns the matched characters. -/
def matchTail (host : List Char) (l : List Char) : Option (List Char) :=
  if host.isPrefixOf l then
    if pathS.isPrefixOf (l.drop host.length) then
      if ((l.drop host.length).drop 3).takeWhile tokenChar = [] then none
      else some (host ++ pathS ++ ((l.drop host.length).drop 3).takeWhile tokenChar)
    else none
  else none

/-- Host part of the first alternative: `terabox(?:app)?\.com`, greedy on
`app` (the two completed spellings are mutually exclusive, so trying the
longer one first is exact). -/
def alt1Host (l : List Char) : Option (List Char) :=
  match matchTail hostA1 l with
  | some m => some m
  | none => matchTail hostA0 l

/-- Host part of the second alternative: `1024terabox\.com`. -/
def alt2Host (l : List Char) : Option (List Char) :=
  matchTail hostB l

/-- Greedy optional `(?:www\.)?`: try consuming `www.` first, falling back
to matching without it. -/
def withWWW (f : List Char → Option (List Char)) (l : List Char) :
    Option (List Char) :=
  if wwwDot.isPrefixOf l then
    match f (l.drop 4) with
    | some m => some (wwwDot ++ m)
    | none => f l
  else f l

/-- `https?://`: the two completed scheme spellings are mutually
exclusive, so no backtracking between them is possible. -/
def withScheme (f : List Char → Option (List Char)) (l : List Char) :
    Option (List Char) :=
  if schemeHttps.isPrefixOf l then
    match f (l.drop 8) with
    | some m => some (schemeHttps ++ m)
    | none => none
  else if schemeHttp.isPrefixOf l then
    match f (l.drop 7) with
    | some m => some (schemeHttp ++ m)
    | none => none
  else none

/-- Match the whole regex of `extract_terabox_link` at the start of `l`,
first alternative preferred (Python `re` alternation order). -/
def matchAt (l : List Char) : Option (List Char) :=
  match withScheme (withWWW alt1Host) l with
  | some m => some m
  | none => withScheme (withWWW alt2Host) l

/-- `re.search` scanning: try every start position left to right and
return the first (leftmost) match. -/
def searchFrom : List Char → Option (List Char)
  | [] => none
  | c :: rest =>
    match matchAt (c :: rest) with
    | some m => some m
    | none => searchFrom rest

/-- `extract_terabox_link` from `bot.py`: the leftmost regex match in the
text, or `None`. -/
def extract_terabox_link (text : String) : Option String :=
  (searchFrom text.data).map (fun m => ⟨m⟩)

/-- Modelled from the spec: a scheme spelling `http://` or `https://`. -/
def isSchemeL (sc : List Char) : Prop :=
  sc = schemeHttp ∨ sc = schemeHttps

/-- Modelled from the spec: the optional `www.` part. -/
def isWWWL (w : List Char) : Prop :=
  w = [] ∨ w = wwwDot

/-- Modelled from the spec: one of the accepted Terabox domain
spellings. -/
def isHostL (h : List Char) : Prop :=
  h = hostA0 ∨ h = hostA1 ∨ h = hostB

/-- Modelled from the spec: a well-formed share link, namely a scheme,
optional `www.`, an accepted domain spelling, `/s/`, and a nonempty run of
token characters. -/
def isShareLinkL (t : List Char) : Prop :=
  ∃ sc w h tok, isSchemeL sc ∧ isWWWL w ∧ isHostL h ∧
    tok ≠ [] ∧ (∀ c ∈ tok, tokenChar c = true) ∧
    t = sc ++ w ++ h ++ pathS ++ tok

/-- Modelled from the spec: `link` occurs in `text` at a position before
which no share link starts (leftmost), and the occurrence is maximal (the
following character, if any, is not a token character, so the link
substring is exactly what the greedy match returns). -/
def firstMaximalMatch (text link : String) : Prop :=
  ∃ pre post : List Char,
    text.data = pre ++ link.data ++ post ∧
    (∀ j, j < pre.length → ∀ t r, isShareLinkL t →
      text.data.drop j ≠ t ++ r) ∧
    (∀ c, post.head? = some c → tokenChar c = false)

/-- Modelled from the spec: some well-formed share link occurs in the text
as a substring. -/
def hasLinkSub (text : String) : Prop :=
  ∃ t pre post, isShareLinkL t ∧ pre ++ t ++ post = text.data

/-- Outcome of one `requests.get` call, as observed by the fetcher code:
either a `requests.exceptions.RequestException` (network failure, timeout,
connection error), or an HTTP response with a status code and a body that
decodes to JSON or does not (`response.json()` raising `ValueError`). -/
inductive HttpOutcome where
  | requestError
  | response (code : Nat) (body : Option Json)

/-- The normalized record each fetcher builds (the Python dict with keys
`title`, `url`, `size`, `thumbnail`; all four keys are always present, so
the dict is always truthy). -/
structure VideoInfo where
  title : Json
  url : Json
  size : Json
  thumbnail : Json

/-- Body handling of `fetch_from_api1` after a decodable 2xx/3xx response:
`data.get('status') == 'success' and data.get('list')`, then the first
`list` item whose `type` is `video` with a truthy `playUrl`.  Calling
`.get` on a non-dict, or iterating a non-list truthy value and probing its
elements, raises and is caught by the fetcher's catch-all, hence `none`. -/
def api1_first_video : List Json → Option VideoInfo
  | [] => none
  | .obj ifs :: rest =>
    if jEqStr (jGetD ifs "type") "video" && truthy (jGetD ifs "playUrl") then
      some { title := jGetDef ifs "name" (.str "Video"),
             url := jGetD ifs "playUrl",
             size := jGetD ifs "size",
             thumbnail := jGetD ifs "image" }
    else api1_first_video rest
  | _ :: _ => none

/-- JSON-shape normalization of API worker 1 (`fetch_from_api1` lines
63–72). -/
def parse_api1 : Json → Option VideoInfo
  | .obj fs =>
    if jEqStr (jGetD fs "status") "success" && truthy (jGetD fs "list") then
      match jGetD fs "list" with
      | .arr items => api1_first_video items
      | _ => none
    else none
  | _ => none

/-- JSON-shape normalization of API worker 2 (`fetch_from_api2` lines
93–99): status flag plus a truthy top-level `download_link`. -/
def parse_api2 : Json → Option VideoInfo
  | .obj fs =>
    if jEqStr (jGetD fs "status") "success" && truthy (jGetD fs "download_link") then
      some { title := jGetDef fs "file_name" (.str "Video"),
             url := jGetD fs "download_link",
             size := jGetD fs "file_size",
             thumbnail := jGetD fs "thumbnail" }
    else none
  | _ => none

/-- Thumbnail selection of `fetch_from_api3`: the `or`-chain over the
named sizes, largest first; the final operand is returned even when falsy,
exactly as Python `or` does. -/
def api3_thumb (ts : List (String × Json)) : Json :=
  pyOr (jGetD ts "850x580")
    (pyOr (jGetD ts "360x270")
      (pyOr (jGetD ts "140x90") (jGetD ts "60x60")))

/-- Handling of the first `📋 Extracted Info` record in `fetch_from_api3`:
require a truthy `🔗 Direct Download Link`; if `🖼️ Thumbnails` is truthy
it must be a dict (probing anything else raises, caught as `none`). -/
def api3_info : Json → Option VideoInfo
  | .obj ifs =>
    if truthy (jGetD ifs "🔗 Direct Download Link") then
      if truthy (jGetD ifs "🖼️ Thumbnails") then
        match jGetD ifs "🖼️ Thumbnails" with
        | .obj ts =>
          some { title := jGetDef ifs "📄 Title" (.str "Video"),
                 url := jGetD ifs "🔗 Direct Download Link",
                 size := jGetD ifs "📦 Size",
                 thumbnail := api3_thumb ts }
        | _ => none
      else
        some { title := jGetDef ifs "📄 Title" (.str "Video"),
               url := jGetD ifs "🔗 Direct Download Link",
               size := jGetD ifs "📦 Size",
               thumbnail := .null }
    else none
  | _ => none

/-- JSON-shape normalization of API worker 3 (`fetch_from_api3` lines
121–134): the `✅ Success` sentinel plus a nonempty `📋 Extracted Info`
list.  Indexing `[0]` into a truthy non-list raises (string item probing,
dict `KeyError`, `TypeError` on `len`), caught as `none`. -/
def parse_api3 : Json → Option VideoInfo
  | .obj fs =>
    if jEqStr (jGetD fs "status") "✅ Success" && truthy (jGetD fs "📋 Extracted Info") then
      match jGetD fs "📋 Extracted Info" with
      | .arr (first :: _) => api3_info first
      | _ => none
    else none
  | _ => none

/-- `fetch_from_api1`: transport errors and 4xx/5xx statuses
(`raise_for_status`) and undecodable bodies map to `None`; otherwise the
body is normalized. -/
def fetch_from_api1 (resp : HttpOutcome) : Option VideoInfo :=
  match resp with
  | .requestError => none
  | .response code body =>
    if 400 ≤ code ∧ code < 600 then none
    else
      match body with
      | none => none
      | some data => parse_api1 data

/-- `fetch_from_api2`, same failure handling as `fetch_from_api1`. -/
def fetch_from_api2 (resp : HttpOutcome) : Option VideoInfo :=
  match resp with
  | .requestError => none
  | .response code body =>
    if 400 ≤ code ∧ code < 600 then none
    else
      match body with
      | none => none
      | some data => parse_api2 data

/-- `fetch_from_api3`, same failure handling as `fetch_from_api1`. -/
def fetch_from_api3 (resp : HttpOutcome) : Option VideoInfo :=
  match resp with
  | .requestError => none
  | .response code body =>
    if 400 ≤ code ∧ code < 600 then none
    else
      match body with
      | none => none
      | some data => parse_api3 data

/-- Python exceptions that the message-handling code distinguishes: the
`AttributeError`s raised by probing non-string fields, the `ValueError`
raised for a non-HTTP URL, and the three classified shapes of a failed
Telegram send. -/
inductive PyExc where
  | attrError
  | valueError
  | sendHttpContent
  | sendParseEntities
  | sendOther
deriving DecidableEq

/-- The providers tried by `handle_terabox_link`, named after the fetchers
(source order of `api_fetchers`: API 3, API 1, API 2). -/
inductive ApiTag where
  | api3
  | api1
  | api2
deriving DecidableEq

/-- The acceptance test of the cascade loop:
`video_info and video_info.get('url') and
"download feature is currently down" not in video_info['url'].lower()`.
A record is always a truthy four-key dict; when its `url` is truthy but
not a string, `.lower()` raises (`AttributeError`), which nothing in
`handle_terabox_link` catches. -/
def acceptResult : Option VideoInfo → Except PyExc Bool
  | none => .ok false
  | some v =>
    if truthy v.url then
      match v.url with
      | .str u => .ok (!containsSub (pyLower u).data markerStr.data)
      | _ => .error .attrError
    else .ok false

/-- The `for fetch_func, api_name in api_fetchers` loop: each provider's
result is bound to `video_info` in turn; on acceptance the loop breaks,
otherwise it continues and `video_info` keeps the (rejected) last value.
Returns the final `video_info` together with the tags of the providers
that were actually invoked. -/
def runCascade :
    List (ApiTag × Option VideoInfo) → Option VideoInfo →
    Except PyExc (Option VideoInfo × List ApiTag)
  | [], vi => .ok (vi, [])
  | (t, r) :: rest, _ =>
    match acceptResult r with
    | .error e => .error e
    | .ok true => .ok (r, [t])
    | .ok false =>
      match runCascade rest r with
      | .error e => .error e
      | .ok (vi, ts) => .ok (vi, t :: ts)

/-- Messages and media sends issued through the Telegram API. -/
inductive BotAction where
  | replyText (text : String)
  | replyVideo (video : String) (caption : String) (thumbnail : Json)

/-- Outcome of the `reply_video` call: success, or one of the failure
shapes the except-branch classifies by substring of `str(e)`. -/
inductive SendOutcome where
  | success
  | failHttpContent
  | failParseEntities
  | failOther
deriving DecidableEq

/-- Python `video_url.startswith(('http://', 'https://'))`. -/
def startsWithHttp (u : String) : Bool :=
  "http://".data.isPrefixOf u.data || "https://".data.isPrefixOf u.data

/-- The caption template of the success path (MarkdownV2; the URL itself
is embedded unescaped in the link construct, the label's parentheses are
escaped in the template literal). -/
def captionFor (escTitle escSize u : String) : String :=
  "🎬 *" ++ escTitle ++ "*\n📦 Size: " ++ escSize ++
    "\n\n[⬇️ Direct Download Link \\(Click here\\)](" ++ u ++ ")"

/-- The advisory message sent after a successful `reply_video`. -/
def afterVideoNote : String :=
  "If the video doesn\x27t play directly or download, try clicking the \x27Direct Download Link\x27 in the message above or open it in your browser/download manager.\n\n❗ **Important Note:** Full-length streaming via direct links may be limited by Terabox\x27s service policies on free accounts. For complete videos, offline playback or usage of the official Terabox app/website is generally more reliable."

/-- The fixed message of the total-resolution-failure branch. -/
def couldNotResolveText : String :=
  "Sorry, I couldn\x27t find a playable video for that Terabox link using any of the available APIs. The link might be invalid, expired, or the content type is not supported."

/-- `error_message_for_user` classification in the except-branch, keyed on
substrings of `str(e)`. -/
def classifyError : PyExc → String
  | .sendHttpContent => "Telegram couldn\x27t access the video content from the provided URL. The link might be expired or restricted."
  | .sendParseEntities => "a formatting error in the message. Trying to fix it now."
  | _ => "an unknown error"

/-- The apologetic explanation message of the except-branch. -/
def apologyText (reason : String) : String :=
  "Sorry, I encountered an error while trying to send the video: " ++ reason ++
    "\n\nPlease try clicking the direct link below."

/-- The guaranteed plain-text fallback message carrying the escaped direct
URL between backticks. -/
def fallbackText (escapedUrl : String) : String :=
  "Here\x27s the direct link you can try manually downloading:\n\n\x60" ++
    escapedUrl ++ "\x60\n\nRemember, some links may have playback restrictions."

/-- The `try` block of the delivery step (lines 198–229): escape title and
size (raising on non-strings), validate the URL scheme (raising
`ValueError` when it is not `http(s)://`), then attempt `reply_video`.
Returns the messages actually sent, whether the media send was attempted,
and the exception handed to the except-branch, if any. -/
def tryBlock (v : VideoInfo) (send : SendOutcome) :
    List BotAction × Bool × Option PyExc :=
  match v.title with
  | .str t =>
    match v.size with
    | .str z =>
      match v.url with
      | .str u =>
        if startsWithHttp u then
          let caption := captionFor (escape_markdown_v2 t) (escape_markdown_v2 z) u
          match send with
          | .success =>
            ([.replyVideo u caption v.thumbnail, .replyText afterVideoNote],
             true, none)
          | .failHttpContent => ([], true, some .sendHttpContent)
          | .failParseEntities => ([], true, some .sendParseEntities)
          | .failOther => ([], true, some .sendOther)
        else ([], false, some .valueError)
      | _ => ([], false, some .attrError)
    | _ => ([], false, some .attrError)
  | _ => ([], false, some .attrError)

/-- The except-branch of the delivery step (lines 231–248): classify the
failure, apologise, and when `video_info.get('url')` is truthy also send
the escaped raw link.  Escaping a truthy non-string url would itself raise
inside the handler. -/
def exceptBlock (v : VideoInfo) (e : PyExc) : Except PyExc (List BotAction) :=
  let apology := BotAction.replyText (apologyText (classifyError e))
  if truthy v.url then
    match v.url with
    | .str u => .ok [apology, .replyText (fallbackText (escape_markdown_v2 u))]
    | _ => .error .attrError
  else .ok [apology]

/-- The whole delivery step for a resolved record: run the try block and,
on an exception, the except-branch.  Returns the messages sent and whether
a media send was attempted. -/
def sendPath (v : VideoInfo) (send : SendOutcome) :
    Except PyExc (List BotAction × Bool) :=
  match tryBlock v send with
  | (acts, att, none) => .ok (acts, att)
  | (acts, att, some e) =>
    match exceptBlock v e with
    | .ok acts2 => .ok (acts ++ acts2, att)
    | .error e2 => .error e2

/-- Everything `handle_terabox_link` observes after the acknowledgement
message: the messages sent, whether a media send was attempted, and which
providers were invoked. -/
structure HandlerTrace where
  msgs : List BotAction
  mediaAttempted : Bool
  invoked : List ApiTag

/-- `handle_terabox_link` after a link was extracted and acknowledged
(lines 179–252): run the cascade over the three fetchers in source order
(API 3, API 1, API 2), then either the delivery step — the post-loop guard
re-checks only `video_info and video_info.get('url')`, not the outage
marker — or the fixed could-not-resolve reply. -/
def handle_after_extract (resp3 resp1 resp2 : HttpOutcome)
    (send : SendOutcome) : Except PyExc HandlerTrace :=
  match runCascade
      [(.api3, fetch_from_api3 resp3), (.api1, fetch_from_api1 resp1),
       (.api2, fetch_from_api2 resp2)] none with
  | .error e => .error e
  | .ok (vi, tags) =>
    match vi with
    | some v =>
      if truthy v.url then
        match sendPath v send with
        | .ok (acts, att) => .ok ⟨acts, att, tags⟩
        | .error e => .error e
      else .ok ⟨[.replyText couldNotResolveText], false, tags⟩
    | none => .ok ⟨[.replyText couldNotResolveText], false, tags⟩

/-- The text payloads of the plain messages in a trace. -/
def sentTexts : List BotAction → List String
  | [] => []
  | .replyText s :: r => s :: sentTexts r
  | _ :: r => sentTexts r

/-- The video URLs of the media sends in a trace. -/
def sentVideos : List BotAction → List String
  | [] => []
  | .replyVideo u _ _ :: r => u :: sentVideos r
  | _ :: r => sentVideos r

/-- Responses of the `/webhook` Flask endpoint. -/
inductive WebhookResult where
  | badRequest (body : String)
  | serverError (body : String)
  | okJson

/-- HTTP status of a webhook response; `okJson` is the
`jsonify(\x7b"status": "ok"\x7d)` acknowledgement. -/
def statusCode : WebhookResult → Nat
  | .badRequest _ => 400
  | .serverError _ => 500
  | .okJson => 200

/-- `telegram_webhook` (lines 269–289).  `isJson` models
`request.is_json`; `parsed` the result of `request.get_json(force=True)`
(`none` when the body cannot be parsed, in which case Flask answers 400);
`deserOk` whether `Update.de_json` succeeds.  The boolean reports whether
`application_instance.process_update` — the handler dispatch — ran. -/
def telegram_webhook (isJson : Bool) (parsed : Option Json)
    (deserOk : Bool) : WebhookResult × Bool :=
  if isJson = false then
    (.badRequest "Bad Request: Content-Type must be application/json", false)
  else
    match parsed with
    | none => (.badRequest "Bad Request: malformed JSON body", false)
    | some j =>
      if truthy j = false then
        (.badRequest "Bad Request: Empty or invalid JSON payload", false)
      else if deserOk = false then
        (.serverError "Internal Server Error: Failed to parse Telegram update.", false)
      else (.okJson, true)

/-- Whether a send outcome is one of the failure shapes. -/
def sendFails : SendOutcome → Bool
  | .success => false
  | _ => true

/-- The exception the except-branch receives for each failed send
outcome. -/
def excOf : SendOutcome → PyExc
  | .success => .sendOther
  | .failHttpContent => .sendHttpContent
  | .failParseEntities => .sendParseEntities
  | .failOther => .sendOther

/-- Sample record a mocked provider A returns (used to instantiate
theorems at concrete inputs). -/
def vGood : VideoInfo :=
  ⟨.str "n", .str "https://a.example/v.mp4", .str "2MB", .null⟩

/-- Sample record a mocked provider B returns. -/
def vGoodB : VideoInfo :=
  ⟨.str "b", .str "https://b.example/v.mp4", .str "3MB", .null⟩

/-- Sample record whose direct URL carries the outage marker in mixed
letter case. -/
def vMarker : VideoInfo :=
  ⟨.str "clip", .str "https://dl.example.com/Download Feature Is Currently Down",
   .str "10MB", .null⟩

/-- Sample resolved record whose direct URL does not start with
`http://` or `https://`. -/
def vBadScheme : VideoInfo :=
  ⟨.str "T", .str "ftp://x", .str "1MB", .null⟩

/-- An API-worker-2 response: HTTP 200 whose `download_link` carries the
outage marker in mixed letter case. -/
def respMarker2 : HttpOutcome :=
  .response 200 (some (.obj
    [("status", .str "success"),
     ("download_link", .str "https://dl.example.com/Download Feature Is Currently Down"),
     ("file_name", .str "clip"), ("file_size", .str "10MB")]))

/-- An API-worker-2 response with a 304 (non-2xx, non-error) status and a
well-formed success body. -/
def resp304 : HttpOutcome :=
  .response 304 (some (.obj
    [("status", .str "success"), ("download_link", .str "http://u")]))

/-- A minimal truthy update object for the webhook. -/
def jUpdate : Json := .obj [("update_id", .num 1)]

/-! Theorems.  First some general-purpose lemmas, then one theorem per
claim of the specification review. -/

theorem truthy_str_of_ne {u : String} (h : u ≠ "") :
    truthy (Json.str u) = true := by
  simp [truthy, h]

theorem marker_nonempty_str {u : String}
    (hm : containsSub (pyLower u).data markerStr.data = true) : u ≠ "" := by
  intro h
  subst h
  exact absurd hm (by decide)

/-- Claim C1: the orchestration loop of `handle_terabox_link` tries the
providers in the fixed order API 3, API 1, API 2 and short-circuits at the
first acceptable result: when API 3's result is rejected and API 1's is
acceptable, the loop returns API 1's record having invoked only API 3 and
API 1 — API 2 is never invoked. -/
theorem claim1_cascade_priority (r3 r1 r2 : Option VideoInfo)
    (h3 : acceptResult r3 = .ok false) (h1 : acceptResult r1 = .ok true) :
    runCascade [(.api3, r3), (.api1, r1), (.api2, r2)] none =
      .ok (r1, [.api3, .api1]) ∧
    ApiTag.api2 ∉ [ApiTag.api3, ApiTag.api1] := by
  constructor
  · simp [runCascade, h3, h1]
  · decide

theorem claim1_cascade_priority_witness :
    runCascade [(.api3, none), (.api1, some vGood), (.api2, some vGoodB)] none =
      .ok (some vGood, [.api3, .api1]) ∧
    ApiTag.api2 ∉ [ApiTag.api3, ApiTag.api1] :=
  claim1_cascade_priority none (some vGood) (some vGoodB) rfl rfl

/-- Claim C3: a provider record whose direct URL contains the outage
marker in any letter case fails the acceptance test exactly as a `None`
result does, and the loop proceeds with the remaining providers. -/
theorem claim3_marker_rejection (v : VideoInfo) (u : String)
    (hu : v.url = .str u)
    (hm : containsSub (pyLower u).data markerStr.data = true) :
    acceptResult (some v) = .ok false ∧
    acceptResult (some v) = acceptResult none ∧
    ∀ (tag : ApiTag) (rest : List (ApiTag × Option VideoInfo))
      (prev : Option VideoInfo),
      runCascade ((tag, some v) :: rest) prev =
        match runCascade rest (some v) with
        | .error e => .error e
        | .ok (vi, ts) => .ok (vi, tag :: ts) := by
  have hne : u ≠ "" := marker_nonempty_str hm
  have hacc : acceptResult (some v) = .ok false := by
    simp [acceptResult, hu, truthy_str_of_ne hne, hm]
  refine ⟨hacc, hacc, ?_⟩
  intro tag rest prev
  simp [runCascade, hacc]

theorem claim3_marker_rejection_witness :
    acceptResult (some vMarker) = .ok false ∧
    acceptResult (some vMarker) = acceptResult none ∧
    runCascade [(ApiTag.api2, some vMarker)] none =
      .ok (some vMarker, [ApiTag.api2]) := by
  have h := claim3_marker_rejection vMarker
    "https://dl.example.com/Download Feature Is Currently Down" rfl (by decide)
  exact ⟨h.1, h.2.1, by rw [h.2.2 ApiTag.api2 [] none]; rfl⟩

/-- Claim C2 is a code bug: when the LAST provider in the cascade returns
a record whose URL carries the outage marker, the loop rejects it, yet the
post-loop guard (`if video_info and video_info.get('url')`) does not
re-check the marker, so the bot attempts the media send with the rejected
URL instead of sending the fixed could-not-resolve message.  This theorem
evaluates the handler at that failing input. -/
theorem claim2_marker_leak :
    ∃ tr, handle_after_extract .requestError .requestError respMarker2
        .success = .ok tr ∧
      tr.mediaAttempted = true ∧
      sentVideos tr.msgs =
        ["https://dl.example.com/Download Feature Is Currently Down"] ∧
      (sentTexts tr.msgs).contains couldNotResolveText = false ∧
      containsSub
        (pyLower "https://dl.example.com/Download Feature Is Currently Down").data
        markerStr.data = true :=
  ⟨_, rfl, rfl, rfl, rfl, by decide⟩

/-- Claim C9: the webhook answers 400 to a non-JSON or unparseable/empty
body without dispatching to any handler, 500 when deserializing the update
fails, and the 200 JSON acknowledgement when dispatch succeeds. -/
theorem claim9_webhook_statuses :
    (∀ parsed deserOk,
      statusCode (telegram_webhook false parsed deserOk).1 = 400 ∧
      (telegram_webhook false parsed deserOk).2 = false) ∧
    (∀ deserOk,
      statusCode (telegram_webhook true none deserOk).1 = 400 ∧
      (telegram_webhook true none deserOk).2 = false) ∧
    (∀ j deserOk, truthy j = false →
      statusCode (telegram_webhook true (some j) deserOk).1 = 400 ∧
      (telegram_webhook true (some j) deserOk).2 = false) ∧
    (∀ j, truthy j = true →
      statusCode (telegram_webhook true (some j) false).1 = 500 ∧
      (telegram_webhook true (some j) false).2 = false) ∧
    (∀ j, truthy j = true →
      telegram_webhook true (some j) true = (.okJson, true) ∧
      statusCode .okJson = 200) := by
  refine ⟨?_, ?_, ?_, ?_, ?_⟩ <;> intros <;>
    simp_all [telegram_webhook, statusCode]

theorem claim9_webhook_statuses_witness :
    (statusCode (telegram_webhook false (some jUpdate) true).1 = 400 ∧
      (telegram_webhook false (some jUpdate) true).2 = false) ∧
    (statusCode (telegram_webhook true none true).1 = 400 ∧
      (telegram_webhook true none true).2 = false) ∧
    (statusCode (telegram_webhook true (some (.obj [])) true).1 = 400 ∧
      (telegram_webhook true (some (.obj [])) true).2 = false) ∧
    (statusCode (telegram_webhook true (some jUpdate) false).1 = 500 ∧
      (telegram_webhook true (some jUpdate) false).2 = false) ∧
    (telegram_webhook true (some jUpdate) true = (.okJson, true) ∧
      statusCode .okJson = 200) :=
  ⟨claim9_webhook_statuses.1 (some jUpdate) true,
   claim9_webhook_statuses.2.1 true,
   claim9_webhook_statuses.2.2.1 (.obj []) true rfl,
   claim9_webhook_statuses.2.2.2.1 jUpdate rfl,
   claim9_webhook_statuses.2.2.2.2 jUpdate rfl⟩

theorem api1_first_video_url (items : List Json) :
    ∀ r, api1_first_video items = some r → truthy r.url = true := by
  induction items with
  | nil => intro r h; exact Option.noConfusion h
  | cons x rest ih =>
    intro r h
    cases x <;> try exact Option.noConfusion h
    simp only [api1_first_video] at h
    split at h
    · rename_i hguard
      injection h with h
      subst h
      rw [Bool.and_eq_true] at hguard
      exact hguard.2
    · exact ih r h

theorem parse_api1_url (d : Json) :
    ∀ r, parse_api1 d = some r → truthy r.url = true := by
  intro r h
  cases d <;> try exact Option.noConfusion h
  simp only [parse_api1] at h
  split at h
  · split at h <;> try exact Option.noConfusion h
    exact api1_first_video_url _ r h
  · exact Option.noConfusion h

theorem parse_api2_url (d : Json) :
    ∀ r, parse_api2 d = some r → truthy r.url = true := by
  intro r h
  cases d <;> try exact Option.noConfusion h
  simp only [parse_api2] at h
  split at h
  · rename_i hguard
    injection h with h
    subst h
    rw [Bool.and_eq_true] at hguard
    exact hguard.2
  · exact Option.noConfusion h

theorem api3_info_url (first : Json) :
    ∀ r, api3_info first = some r → truthy r.url = true := by
  intro r h
  cases first <;> try exact Option.noConfusion h
  simp only [api3_info] at h
  split at h
  · rename_i hguard
    split at h
    · split at h <;> try exact Option.noConfusion h
      injection h with h
      subst h
      exact hguard
    · injection h with h
      subst h
      exact hguard
  · exact Option.noConfusion h

theorem parse_api3_url (d : Json) :
    ∀ r, parse_api3 d = some r → truthy r.url = true := by
  intro r h
  cases d <;> try exact Option.noConfusion h
  simp only [parse_api3] at h
  split at h
  · split at h <;> try exact Option.noConfusion h
    exact api3_info_url _ r h
  · exact Option.noConfusion h

/-- Claim C10: every record a fetcher returns has a truthy `url` field —
each fetcher checks its provider's direct-link field before building the
record — so the orchestrator's presence check holds for every produced
record. -/
theorem claim10_url_truthy (resp : HttpOutcome) (r : VideoInfo) :
    (fetch_from_api1 resp = some r → truthy r.url = true) ∧
    (fetch_from_api2 resp = some r → truthy r.url = true) ∧
    (fetch_from_api3 resp = some r → truthy r.url = true) := by
  refine ⟨fun h => ?_, fun h => ?_, fun h => ?_⟩
  · cases resp with
    | requestError => exact Option.noConfusion h
    | response code body =>
      simp only [fetch_from_api1] at h
      split at h
      · exact Option.noConfusion h
      · cases body with
        | none => exact Option.noConfusion h
        | some data => exact parse_api1_url data r h
  · cases resp with
    | requestError => exact Option.noConfusion h
    | response code body =>
      simp only [fetch_from_api2] at h
      split at h
      · exact Option.noConfusion h
      · cases body with
        | none => exact Option.noConfusion h
        | some data => exact parse_api2_url data r h
  · cases resp with
    | requestError => exact Option.noConfusion h
    | response code body =>
      simp only [fetch_from_api3] at h
      split at h
      · exact Option.noConfusion h
      · cases body with
        | none => exact Option.noConfusion h
        | some data => exact parse_api3_url data r h

theorem claim10_url_truthy_witness :
    fetch_from_api2 (.response 200 (some (.obj
      [("status", .str "success"), ("download_link", .str "http://u")]))) =
      some ⟨.str "Video", .str "http://u", .null, .null⟩ ∧
    truthy (VideoInfo.url ⟨.str "Video", .str "http://u", .null, .null⟩) = true :=
  ⟨rfl,
   (claim10_url_truthy
     (.response 200 (some (.obj
       [("status", .str "success"), ("download_link", .str "http://u")])))
     ⟨.str "Video", .str "http://u", .null, .null⟩).2.1 rfl⟩

/-- Counterexample to claim C4 as stated: `raise_for_status` raises only
for 4xx/5xx, so a non-2xx status such as 304 with a well-formed success
body is NOT mapped to `None` — the fetcher returns a record. -/
theorem claim4_nontwoxx_counterexample :
    (fetch_from_api2 resp304).isSome = true ∧ ¬(200 ≤ 304 ∧ 304 ≤ 299) :=
  ⟨rfl, by decide⟩

/-- Claim C4 as amended: each fetcher maps transport errors/timeouts,
HTTP error statuses (4xx/5xx, per `raise_for_status`), undecodable
bodies, bodies that are not the expected object shape, and objects
missing the provider's expected fields to `None`; no failure escapes to
the caller. -/
theorem claim4_failure_modes :
    (fetch_from_api1 .requestError = none ∧
     fetch_from_api2 .requestError = none ∧
     fetch_from_api3 .requestError = none) ∧
    (∀ code body, 400 ≤ code → code < 600 →
      fetch_from_api1 (.response code body) = none ∧
      fetch_from_api2 (.response code body) = none ∧
      fetch_from_api3 (.response code body) = none) ∧
    (∀ code,
      fetch_from_api1 (.response code none) = none ∧
      fetch_from_api2 (.response code none) = none ∧
      fetch_from_api3 (.response code none) = none) ∧
    (∀ s,
      fetch_from_api1 (.response 200 (some (.str s))) = none ∧
      fetch_from_api2 (.response 200 (some (.str s))) = none ∧
      fetch_from_api3 (.response 200 (some (.str s))) = none) ∧
    (∀ fs, List.lookup "list" fs = none →
      fetch_from_api1 (.response 200 (some (.obj fs))) = none) ∧
    (∀ fs, List.lookup "download_link" fs = none →
      fetch_from_api2 (.response 200 (some (.obj fs))) = none) ∧
    (∀ fs, List.lookup "📋 Extracted Info" fs = none →
      fetch_from_api3 (.response 200 (some (.obj fs))) = none) := by
  refine ⟨⟨rfl, rfl, rfl⟩, ?_, ?_, ?_, ?_, ?_, ?_⟩
  · intro code body h1 h2
    refine ⟨?_, ?_, ?_⟩ <;>
      simp [fetch_from_api1, fetch_from_api2, fetch_from_api3, h1, h2]
  · intro code
    refine ⟨?_, ?_, ?_⟩ <;>
      · simp only [fetch_from_api1, fetch_from_api2, fetch_from_api3]
        split <;> rfl
  · intro s
    exact ⟨rfl, rfl, rfl⟩
  · intro fs h
    simp [fetch_from_api1, parse_api1, jGetD, h, truthy]
  · intro fs h
    simp [fetch_from_api2, parse_api2, jGetD, h, truthy]
  · intro fs h
    simp [fetch_from_api3, parse_api3, jGetD, h, truthy]

theorem claim4_failure_modes_witness :
    fetch_from_api1 (.response 404 (some (.obj []))) = none ∧
    fetch_from_api2 (.response 200 none) = none ∧
    fetch_from_api3 (.response 200 (some (.str "oops"))) = none ∧
    fetch_from_api2 (.response 200 (some (.obj
      [("status", .str "success")]))) = none :=
  ⟨(claim4_failure_modes.2.1 404 (some (.obj [])) (by decide) (by decide)).1,
   (claim4_failure_modes.2.2.1 200).2.1,
   (claim4_failure_modes.2.2.2.1 "oops").2.2,
   claim4_failure_modes.2.2.2.2.2.1 [("status", .str "success")] rfl⟩

/-- Claim C7: the delivery step validates the record's URL scheme before
any media send; when the URL does not start with `http://` or
`https://`, no media send is attempted and the `ValueError` lands in the
delivery-failure path, which apologises (unknown-error classification)
and sends the escaped raw link. -/
theorem claim7_scheme_validation (v : VideoInfo) (t z u : String)
    (send : SendOutcome)
    (ht : v.title = .str t) (hz : v.size = .str z) (hu : v.url = .str u)
    (hne : u ≠ "") (hbad : startsWithHttp u = false) :
    sendPath v send =
      .ok ([.replyText (apologyText "an unknown error"),
            .replyText (fallbackText (escape_markdown_v2 u))], false) := by
  have htr : truthy v.url = true := by rw [hu]; exact truthy_str_of_ne hne
  rw [hu] at htr
  simp [sendPath, tryBlock, exceptBlock, ht, hz, hu, hbad, htr, classifyError]

theorem claim7_scheme_validation_witness :
    sendPath vBadScheme .success =
      .ok ([.replyText (apologyText "an unknown error"),
            .replyText (fallbackText (escape_markdown_v2 "ftp://x"))], false) :=
  claim7_scheme_validation vBadScheme "T" "1MB" "ftp://x" .success rfl rfl rfl
    (by decide) (by decide)

theorem isPrefixOf_self_append :
    ∀ (p b : List Char), p.isPrefixOf (p ++ b) = true := by
  intro p
  induction p with
  | nil => intro b; cases b <;> rfl
  | cons c cs ih => intro b; simp [List.isPrefixOf, ih b]

theorem containsSub_of_isPrefixOf :
    ∀ (s p : List Char), p.isPrefixOf s = true → containsSub s p = true := by
  intro s p h
  cases s with
  | nil =>
    cases p with
    | nil => rfl
    | cons c cs => exact absurd h (by simp [List.isPrefixOf])
  | cons x rest => simp [containsSub, h]

theorem containsSub_middle (p : List Char) :
    ∀ (a b : List Char), containsSub (a ++ (p ++ b)) p = true := by
  intro a
  induction a with
  | nil =>
    intro b
    exact containsSub_of_isPrefixOf _ _ (isPrefixOf_self_append p b)
  | cons x xs ih =>
    intro b
    simp only [List.cons_append, containsSub, Bool.or_eq_true]
    right
    exact ih b

/-- Claim C8: when resolution succeeded but the media send fails, the
failure is caught, a classified apology is sent, and a fallback message
containing the escaped direct URL as literal text is sent. -/
theorem claim8_delivery_fallback (v : VideoInfo) (t z u : String)
    (send : SendOutcome)
    (ht : v.title = .str t) (hz : v.size = .str z) (hu : v.url = .str u)
    (hok : startsWithHttp u = true) (hf : sendFails send = true) :
    sendPath v send =
      .ok ([.replyText (apologyText (classifyError (excOf send))),
            .replyText (fallbackText (escape_markdown_v2 u))], true) ∧
    containsSub (fallbackText (escape_markdown_v2 u)).data
      (escape_markdown_v2 u).data = true := by
  have hne : u ≠ "" := by
    intro h
    subst h
    exact absurd hok (by decide)
  have htr : truthy (Json.str u) = true := truthy_str_of_ne hne
  constructor
  · cases send with
    | success => exact absurd hf (by simp [sendFails])
    | failHttpContent =>
      simp [sendPath, tryBlock, exceptBlock, ht, hz, hu, hok, htr, excOf]
    | failParseEntities =>
      simp [sendPath, tryBlock, exceptBlock, ht, hz, hu, hok, htr, excOf]
    | failOther =>
      simp [sendPath, tryBlock, exceptBlock, ht, hz, hu, hok, htr, excOf]
  · show containsSub
      ("Here\x27s the direct link you can try manually downloading:\n\n\x60" ++
        escape_markdown_v2 u ++
        "\x60\n\nRemember, some links may have playback restrictions.").data
      (escape_markdown_v2 u).data = true
    rw [show ("Here\x27s the direct link you can try manually downloading:\n\n\x60" ++
        escape_markdown_v2 u ++
        "\x60\n\nRemember, some links may have playback restrictions.").data =
        "Here\x27s the direct link you can try manually downloading:\n\n\x60".data ++
          ((escape_markdown_v2 u).data ++
            "\x60\n\nRemember, some links may have playback restrictions.".data)
      from by simp [List.append_assoc]]
    exact containsSub_middle _ _ _

theorem claim8_delivery_fallback_witness :
    (sendPath ⟨.str "T", .str "https://ok/x", .str "1MB", .null⟩
        .failHttpContent =
      .ok ([.replyText (apologyText (classifyError (excOf .failHttpContent))),
            .replyText (fallbackText (escape_markdown_v2 "https://ok/x"))],
           true)) ∧
    containsSub (fallbackText (escape_markdown_v2 "https://ok/x")).data
      (escape_markdown_v2 "https://ok/x").data = true :=
  claim8_delivery_fallback ⟨.str "T", .str "https://ok/x", .str "1MB", .null⟩
    "T" "1MB" "https://ok/x" .failHttpContent rfl rfl rfl (by decide) rfl

theorem concatMapC_append (f : Char → List Char) :
    ∀ (a b : List Char),
      concatMapC f (a ++ b) = concatMapC f a ++ concatMapC f b := by
  intro a b
  induction a with
  | nil => rfl
  | cons c cs ih => simp [concatMapC, ih, List.append_assoc]

theorem concatMapC_congr {f g : Char → List Char} :
    ∀ (l : List Char), (∀ a ∈ l, f a = g a) →
      concatMapC f l = concatMapC g l := by
  intro l
  induction l with
  | nil => intro _; rfl
  | cons c cs ih =>
    intro h
    simp only [concatMapC]
    rw [h c (List.mem_cons_self c cs), ih (fun a ha => h a (List.mem_cons_of_mem c ha))]

theorem concatMapC_comp (f g : Char → List Char) :
    ∀ (l : List Char),
      concatMapC g (concatMapC f l) =
        concatMapC (fun a => concatMapC g (f a)) l := by
  intro l
  induction l with
  | nil => rfl
  | cons c cs ih => simp [concatMapC, concatMapC_append, ih]

theorem concatMapC_pure : ∀ (l : List Char),
    concatMapC (fun a => [a]) l = l := by
  intro l
  induction l with
  | nil => rfl
  | cons c cs ih => simp [concatMapC, ih]

theorem escape_foldl_data :
    ∀ (cs : List Char) (s : String),
      (List.foldl (fun t c => pyReplaceChar t c ⟨['\\', c]⟩) s cs).data =
        List.foldl (fun l c => replaceCharL l c ['\\', c]) s.data cs := by
  intro cs
  induction cs with
  | nil => intro s; rfl
  | cons c rest ih =>
    intro s
    rw [List.foldl_cons, List.foldl_cons, ih]
    rfl

theorem foldl_replace :
    ∀ (R : List Char), R.Nodup → '\\' ∉ R → ∀ (l : List Char),
      List.foldl (fun l c => replaceCharL l c ['\\', c]) l R =
        concatMapC (fun a => if a ∈ R then ['\\', a] else [a]) l := by
  intro R
  induction R with
  | nil =>
    intro _ _ l
    simp only [List.foldl_nil, List.not_mem_nil, if_false]
    exact (concatMapC_pure l).symm
  | cons c R ih =>
    intro hnd hbs l
    obtain ⟨hcR, hndR⟩ := List.nodup_cons.mp hnd
    have hbsc : '\\' ≠ c := fun h => hbs (h ▸ List.mem_cons_self c R)
    have hbsR : '\\' ∉ R := fun h => hbs (List.mem_cons_of_mem c h)
    rw [List.foldl_cons, ih hndR hbsR, replaceCharL, concatMapC_comp]
    apply concatMapC_congr
    intro a _
    by_cases hac : a = c
    · subst hac
      simp only [if_pos rfl, concatMapC, List.append_nil,
        if_neg hbsR, if_neg hcR, List.mem_cons, true_or, if_pos]
      rfl
    · simp only [if_neg hac, concatMapC, List.append_nil, List.mem_cons]
      by_cases haR : a ∈ R
      · simp [haR]
      · simp [haR, hac]

/-- Claim C6: one application of `escape_markdown_v2` prefixes every
occurrence of each reserved character with exactly one backslash —
because the backslash is replaced first, the inserted backslashes are
never re-escaped — and in particular `A.B(C)` becomes `A\.B\(C\)`. -/
theorem claim6_escape_characterization :
    (∀ s : String,
      (escape_markdown_v2 s).data = concatMapC escSpecChar s.data) ∧
    escape_markdown_v2 "A.B(C)" = "A\\.B\\(C\\)" := by
  constructor
  · intro s
    show (List.foldl (fun t c => pyReplaceChar t c ⟨['\\', c]⟩) s
        special_chars).data = concatMapC escSpecChar s.data
    rw [escape_foldl_data]
    show List.foldl (fun l c => replaceCharL l c ['\\', c]) s.data
        ('\\' :: specialTail) = concatMapC escSpecChar s.data
    rw [List.foldl_cons,
      foldl_replace specialTail (by decide) (by decide), replaceCharL,
      concatMapC_comp]
    apply concatMapC_congr
    intro a _
    by_cases hab : a = '\\'
    · subst hab
      simp only [if_pos rfl, concatMapC, List.append_nil, escSpecChar]
      rw [if_neg (show ('\\' : Char) ∉ specialTail from by decide),
        if_pos (show ('\\' : Char) ∈ special_chars from by decide)]
      rfl
    · simp only [if_neg hab, concatMapC, List.append_nil, escSpecChar,
        special_chars, List.mem_cons]
      by_cases haT : a ∈ specialTail
      · simp [haT]
      · simp [haT, hab]
  · decide

theorem isPrefixOfE :
    ∀ (a l : List Char), a.isPrefixOf l = true ↔ ∃ r, a ++ r = l := by
  intro a
  induction a with
  | nil =>
    intro l
    constructor
    · intro _; exact ⟨l, rfl⟩
    · intro _; cases l <;> rfl
  | cons c cs ih =>
    intro l
    cases l with
    | nil =>
      constructor
      · intro h; exact absurd h (by simp [List.isPrefixOf])
      · rintro ⟨r, hr⟩; exact absurd hr (by simp)
    | cons d ds =>
      constructor
      · intro h
        rw [List.isPrefixOf, Bool.and_eq_true] at h
        obtain ⟨r, hr⟩ := (ih ds).mp h.2
        exact ⟨r, by rw [List.cons_append, hr, beq_iff_eq.mp h.1]⟩
      · rintro ⟨r, hr⟩
        rw [List.cons_append] at hr
        injection hr with h1 h2
        rw [List.isPrefixOf, Bool.and_eq_true]
        exact ⟨by rw [h1, beq_self_eq_true], (ih ds).mpr ⟨r, h2⟩⟩

theorem dropOfAppend {a b l : List Char} (h : a ++ b = l) :
    l.drop a.length = b := by
  subst h
  exact List.drop_left a b

theorem takeOfAppend {a b l : List Char} (h : a ++ b = l) :
    l.take a.length = a := by
  subst h
  exact List.take_left a b

theorem takeEqOfBothStart {a r b s l : List Char} {n : Nat}
    (h1 : a ++ r = l) (h2 : b ++ s = l)
    (hna : n ≤ a.length) (hnb : n ≤ b.length) : a.take n = b.take n := by
  have ha := takeOfAppend h1
  have hb := takeOfAppend h2
  calc a.take n = (l.take a.length).take n := by rw [ha]
    _ = l.take (min n a.length) := List.take_take n a.length l
    _ = l.take n := by rw [min_eq_left hna]
    _ = l.take (min n b.length) := by rw [min_eq_left hnb]
    _ = (l.take b.length).take n := (List.take_take n b.length l).symm
    _ = b.take n := by rw [hb]

theorem noStart {b s l : List Char} (a : List Char) (n : Nat)
    (h2 : b ++ s = l) (hne : a.take n ≠ b.take n)
    (hna : n ≤ a.length) (hnb : n ≤ b.length) :
    a.isPrefixOf l = false := by
  cases hp : a.isPrefixOf l with
  | false => rfl
  | true =>
    exfalso
    obtain ⟨r, hr⟩ := (isPrefixOfE a l).mp hp
    exact hne (takeEqOfBothStart hr h2 hna hnb)

theorem memTakeWhileP (p : Char → Bool) :
    ∀ (l : List Char) (c : Char), c ∈ l.takeWhile p → p c = true := by
  intro l
  induction l with
  | nil => intro c h; exact absurd h (by simp)
  | cons d ds ih =>
    intro c h
    rw [List.takeWhile_cons] at h
    split at h
    · rcases List.mem_cons.mp h with h1 | h1
      · subst h1; assumption
      · exact ih c h1
    · exact absurd h (by simp)

theorem headDropWhileP (p : Char → Bool) :
    ∀ (l : List Char) (c : Char),
      (l.dropWhile p).head? = some c → p c = false := by
  intro l
  induction l with
  | nil => intro c h; exact Option.noConfusion h
  | cons d ds ih =>
    intro c h
    rw [List.dropWhile_cons] at h
    split at h
    · exact ih c h
    · rename_i hpd
      injection h with h
      subst h
      exact Bool.not_eq_true _ ▸ hpd

theorem matchTail_sound {host l m : List Char}
    (h : matchTail host l = some m) :
    ∃ tok rest, tok ≠ [] ∧ (∀ c ∈ tok, tokenChar c = true) ∧
      m = host ++ pathS ++ tok ∧ m ++ rest = l ∧
      (∀ c, rest.head? = some c → tokenChar c = false) := by
  rw [matchTail] at h
  split at h
  case isFalse => exact Option.noConfusion h
  rename_i hhost
  split at h
  case isFalse => exact Option.noConfusion h
  rename_i hpath
  split at h
  case isTrue => exact Option.noConfusion h
  rename_i htok
  injection h with h
  obtain ⟨r1, hr1⟩ := (isPrefixOfE _ _).mp hhost
  obtain ⟨r2, hr2⟩ := (isPrefixOfE _ _).mp hpath
  have h3 : pathS.length = 3 := rfl
  have hd2 : (l.drop host.length).drop 3 = r2 := by
    rw [← h3]
    exact dropOfAppend hr2
  refine ⟨((l.drop host.length).drop 3).takeWhile tokenChar,
    r2.dropWhile tokenChar, htok, ?_, h.symm, ?_, ?_⟩
  · intro c hc
    exact memTakeWhileP tokenChar _ c hc
  · rw [← h, hd2, List.append_assoc, List.append_assoc,
      List.takeWhile_append_dropWhile, hr2, dropOfAppend hr1]
    exact hr1
  · exact headDropWhileP tokenChar r2

theorem matchTail_isSome {host tok r l : List Char}
    (hl : host ++ (pathS ++ (tok ++ r)) = l) (hne : tok ≠ [])
    (htok : ∀ c ∈ tok, tokenChar c = true) :
    (matchTail host l).isSome = true := by
  have hhost : host.isPrefixOf l = true := (isPrefixOfE _ _).mpr ⟨_, hl⟩
  have hd1 : l.drop host.length = pathS ++ (tok ++ r) := dropOfAppend hl
  have hpath : pathS.isPrefixOf (l.drop host.length) = true := by
    rw [hd1]
    exact isPrefixOf_self_append _ _
  have h3 : pathS.length = 3 := rfl
  have hd2 : (l.drop host.length).drop 3 = tok ++ r := by
    rw [hd1, ← h3]
    exact List.drop_left _ _
  have htw : ((l.drop host.length).drop 3).takeWhile tokenChar ≠ [] := by
    rw [hd2]
    cases tok with
    | nil => exact absurd rfl hne
    | cons c cs =>
      rw [List.cons_append, List.takeWhile_cons,
        if_pos (htok c (List.mem_cons_self c cs))]
      simp
  rw [matchTail, if_pos hhost, if_pos hpath, if_neg htw]
  rfl

theorem matchTail_none {host l : List Char}
    (h : host.isPrefixOf l = false) : matchTail host l = none := by
  simp [matchTail, h]

theorem withWWW_sound {f : List Char → Option (List Char)} {l m : List Char}
    (h : withWWW f l = some m) :
    (∃ m', f (l.drop 4) = some m' ∧ m = wwwDot ++ m' ∧
      wwwDot.isPrefixOf l = true) ∨ f l = some m := by
  rw [withWWW] at h
  split at h
  · rename_i hw
    split at h
    · rename_i m' hfm
      injection h with h
      exact Or.inl ⟨m', hfm, h.symm, hw⟩
    · exact Or.inr h
  · exact Or.inr h

theorem withScheme_sound {f : List Char → Option (List Char)} {l m : List Char}
    (h : withScheme f l = some m) :
    (∃ m', schemeHttps.isPrefixOf l = true ∧ f (l.drop 8) = some m' ∧
      m = schemeHttps ++ m') ∨
    (∃ m', schemeHttp.isPrefixOf l = true ∧ f (l.drop 7) = some m' ∧
      m = schemeHttp ++ m') := by
  rw [withScheme] at h
  split at h
  · rename_i hs
    split at h
    · rename_i m' hfm
      injection h with h
      exact Or.inl ⟨m', hs, hfm, h.symm⟩
    · exact Option.noConfusion h
  · split at h
    · rename_i hp
      split at h
      · rename_i m' hfm
        injection h with h
        exact Or.inr ⟨m', hp, hfm, h.symm⟩
      · exact Option.noConfusion h
    · exact Option.noConfusion h

theorem alt1Host_sound {l m : List Char} (h : alt1Host l = some m) :
    matchTail hostA1 l = some m ∨ matchTail hostA0 l = some m := by
  rw [alt1Host] at h
  split at h
  · rename_i m' hm
    injection h with h
    exact Or.inl (h ▸ hm)
  · exact Or.inr h

theorem withWWW_some_www {f : List Char → Option (List Char)}
    {l m' : List Char} (hw : wwwDot.isPrefixOf l = true)
    (hf : f (l.drop 4) = some m') :
    withWWW f l = some (wwwDot ++ m') := by
  rw [withWWW, if_pos hw, hf]

theorem withWWW_no_www {f : List Char → Option (List Char)} {l : List Char}
    (hw : wwwDot.isPrefixOf l = false) : withWWW f l = f l := by
  simp [withWWW, hw]

theorem withWWW_none {f : List Char → Option (List Char)} {l : List Char}
    (h4 : f (l.drop 4) = none) (h0 : f l = none) : withWWW f l = none := by
  simp [withWWW, h4, h0]

theorem withScheme_some_https {f : List Char → Option (List Char)}
    {l m' : List Char} (hs : schemeHttps.isPrefixOf l = true)
    (hf : f (l.drop 8) = some m') :
    withScheme f l = some (schemeHttps ++ m') := by
  rw [withScheme, if_pos hs, hf]

theorem withScheme_some_http {f : List Char → Option (List Char)}
    {l m' : List Char} (hs : schemeHttps.isPrefixOf l = false)
    (hp : schemeHttp.isPrefixOf l = true)
    (hf : f (l.drop 7) = some m') :
    withScheme f l = some (schemeHttp ++ m') := by
  simp [withScheme, hs, hp, hf]

theorem withScheme_none_https {f : List Char → Option (List Char)}
    {l : List Char} (hs : schemeHttps.isPrefixOf l = true)
    (hf : f (l.drop 8) = none) : withScheme f l = none := by
  simp [withScheme, hs, hf]

theorem withScheme_none_http {f : List Char → Option (List Char)}
    {l : List Char} (hs : schemeHttps.isPrefixOf l = false)
    (hp : schemeHttp.isPrefixOf l = true)
    (hf : f (l.drop 7) = none) : withScheme f l = none := by
  simp [withScheme, hs, hp, hf]

theorem alt1Host_none {l : List Char}
    (h1 : matchTail hostA1 l = none) (h0 : matchTail hostA0 l = none) :
    alt1Host l = none := by
  simp [alt1Host, h1, h0]

theorem alt1Host_none_hostB {l s : List Char} (h : hostB ++ s = l) :
    alt1Host l = none :=
  alt1Host_none
    (matchTail_none (noStart hostA1 1 h (by decide) (by decide) (by decide)))
    (matchTail_none (noStart hostA0 1 h (by decide) (by decide) (by decide)))

theorem alt1Host_none_www {l s : List Char} (h : wwwDot ++ s = l) :
    alt1Host l = none :=
  alt1Host_none
    (matchTail_none (noStart hostA1 1 h (by decide) (by decide) (by decide)))
    (matchTail_none (noStart hostA0 1 h (by decide) (by decide) (by decide)))

theorem alt2Host_none_www {l s : List Char} (h : wwwDot ++ s = l) :
    alt2Host l = none := by
  rw [alt2Host]
  exact matchTail_none (noStart hostB 1 h (by decide) (by decide) (by decide))

theorem alt1Host_isSome_A1 {l tok r : List Char}
    (hl : hostA1 ++ (pathS ++ (tok ++ r)) = l) (hne : tok ≠ [])
    (htok : ∀ c ∈ tok, tokenChar c = true) :
    (alt1Host l).isSome = true := by
  obtain ⟨m, hm⟩ :=
    Option.isSome_iff_exists.mp (matchTail_isSome hl hne htok)
  simp [alt1Host, hm]

theorem alt1Host_isSome_A0 {l tok r : List Char}
    (hl : hostA0 ++ (pathS ++ (tok ++ r)) = l) (hne : tok ≠ [])
    (htok : ∀ c ∈ tok, tokenChar c = true) :
    (alt1Host l).isSome = true := by
  have h1 : matchTail hostA1 l = none :=
    matchTail_none (noStart hostA1 8 hl (by decide) (by decide) (by decide))
  obtain ⟨m, hm⟩ :=
    Option.isSome_iff_exists.mp (matchTail_isSome hl hne htok)
  simp [alt1Host, h1, hm]

theorem alt2Host_isSome {l tok r : List Char}
    (hl : hostB ++ (pathS ++ (tok ++ r)) = l) (hne : tok ≠ [])
    (htok : ∀ c ∈ tok, tokenChar c = true) :
    (alt2Host l).isSome = true := by
  rw [alt2Host]
  exact matchTail_isSome hl hne htok

theorem alt1Host_shape {l m : List Char} (h : alt1Host l = some m) :
    ∃ hh tok rest, isHostL hh ∧ tok ≠ [] ∧
      (∀ c ∈ tok, tokenChar c = true) ∧ m = hh ++ pathS ++ tok ∧
      m ++ rest = l ∧
      (∀ c, rest.head? = some c → tokenChar c = false) := by
  rcases alt1Host_sound h with h1 | h0
  · obtain ⟨tok, rest, hne, htok, hm, happ, hhead⟩ := matchTail_sound h1
    exact ⟨hostA1, tok, rest, Or.inr (Or.inl rfl), hne, htok, hm, happ, hhead⟩
  · obtain ⟨tok, rest, hne, htok, hm, happ, hhead⟩ := matchTail_sound h0
    exact ⟨hostA0, tok, rest, Or.inl rfl, hne, htok, hm, happ, hhead⟩

theorem alt2Host_shape {l m : List Char} (h : alt2Host l = some m) :
    ∃ hh tok rest, isHostL hh ∧ tok ≠ [] ∧
      (∀ c ∈ tok, tokenChar c = true) ∧ m = hh ++ pathS ++ tok ∧
      m ++ rest = l ∧
      (∀ c, rest.head? = some c → tokenChar c = false) := by
  rw [alt2Host] at h
  obtain ⟨tok, rest, hne, htok, hm, happ, hhead⟩ := matchTail_sound h
  exact ⟨hostB, tok, rest, Or.inr (Or.inr rfl), hne, htok, hm, happ, hhead⟩

theorem www_shape {g : List Char → Option (List Char)}
    (hg : ∀ {l' m' : List Char}, g l' = some m' →
      ∃ hh tok rest, isHostL hh ∧ tok ≠ [] ∧
        (∀ c ∈ tok, tokenChar c = true) ∧ m' = hh ++ pathS ++ tok ∧
        m' ++ rest = l' ∧
        (∀ c, rest.head? = some c → tokenChar c = false))
    {l m : List Char} (h : withWWW g l = some m) :
    ∃ w hh tok rest, isWWWL w ∧ isHostL hh ∧ tok ≠ [] ∧
      (∀ c ∈ tok, tokenChar c = true) ∧ m = w ++ (hh ++ pathS ++ tok) ∧
      m ++ rest = l ∧
      (∀ c, rest.head? = some c → tokenChar c = false) := by
  rcases withWWW_sound h with ⟨m', hfm, hm, hw⟩ | hplain
  · obtain ⟨hh, tok, rest, hhost, hne, htok, hm', happ, hhead⟩ := hg hfm
    obtain ⟨r, hr⟩ := (isPrefixOfE _ _).mp hw
    have hdr : l.drop 4 = r := dropOfAppend hr
    refine ⟨wwwDot, hh, tok, rest, Or.inr rfl, hhost, hne, htok,
      by rw [hm, hm'], ?_, hhead⟩
    rw [hm, hm', ← hm', List.append_assoc, happ, hdr]
    exact hr
  · obtain ⟨hh, tok, rest, hhost, hne, htok, hm', happ, hhead⟩ := hg hplain
    exact ⟨[], hh, tok, rest, Or.inl rfl, hhost, hne, htok,
      by rw [hm', List.nil_append], happ, hhead⟩

theorem scheme_shape {g : List Char → Option (List Char)}
    (hg : ∀ {l' m' : List Char}, g l' = some m' →
      ∃ w hh tok rest, isWWWL w ∧ isHostL hh ∧ tok ≠ [] ∧
        (∀ c ∈ tok, tokenChar c = true) ∧ m' = w ++ (hh ++ pathS ++ tok) ∧
        m' ++ rest = l' ∧
        (∀ c, rest.head? = some c → tokenChar c = false))
    {l m : List Char} (h : withScheme g l = some m) :
    isShareLinkL m ∧ ∃ rest, m ++ rest = l ∧
      (∀ c, rest.head? = some c → tokenChar c = false) := by
  rcases withScheme_sound h with ⟨m', hs, hfm, hm⟩ | ⟨m', hp, hfm, hm⟩
  · obtain ⟨w, hh, tok, rest, hww, hhost, hne, htok, hm', happ, hhead⟩ :=
      hg hfm
    obtain ⟨r, hr⟩ := (isPrefixOfE _ _).mp hs
    have hdr : l.drop 8 = r := by
      have h8 : schemeHttps.length = 8 := rfl
      rw [← h8]
      exact dropOfAppend hr
    constructor
    · exact ⟨schemeHttps, w, hh, tok, Or.inr rfl, hww, hhost, hne, htok,
        by rw [hm, hm']; simp [List.append_assoc]⟩
    · refine ⟨rest, ?_, hhead⟩
      rw [hm, List.append_assoc, happ, hdr]
      exact hr
  · obtain ⟨w, hh, tok, rest, hww, hhost, hne, htok, hm', happ, hhead⟩ :=
      hg hfm
    obtain ⟨r, hr⟩ := (isPrefixOfE _ _).mp hp
    have hdr : l.drop 7 = r := by
      have h7 : schemeHttp.length = 7 := rfl
      rw [← h7]
      exact dropOfAppend hr
    constructor
    · exact ⟨schemeHttp, w, hh, tok, Or.inl rfl, hww, hhost, hne, htok,
        by rw [hm, hm']; simp [List.append_assoc]⟩
    · refine ⟨rest, ?_, hhead⟩
      rw [hm, List.append_assoc, happ, hdr]
      exact hr

theorem matchAt_sound {l m : List Char} (h : matchAt l = some m) :
    isShareLinkL m ∧ ∃ rest, m ++ rest = l ∧
      (∀ c, rest.head? = some c → tokenChar c = false) := by
  rw [matchAt] at h
  split at h
  · rename_i m1 hm1
    injection h with h
    subst h
    exact scheme_shape (fun h' => www_shape (fun h'' => alt1Host_shape h'') h') hm1
  · exact scheme_shape (fun h' => www_shape (fun h'' => alt2Host_shape h'') h') h

theorem www_alt1_isSome {w hh tok rr L1 : List Char}
    (hw : isWWWL w) (hhost : hh = hostA0 ∨ hh = hostA1)
    (hL1 : w ++ (hh ++ (pathS ++ (tok ++ rr))) = L1) (hne : tok ≠ [])
    (htok : ∀ c ∈ tok, tokenChar c = true) :
    (withWWW alt1Host L1).isSome = true := by
  rcases hw with hw0 | hw1
  · subst hw0
    rw [List.nil_append] at hL1
    have hnw : wwwDot.isPrefixOf L1 = false := by
      rcases hhost with h | h <;> subst h <;>
        exact noStart wwwDot 1 hL1 (by decide) (by decide) (by decide)
    rw [withWWW_no_www hnw]
    rcases hhost with h | h <;> subst h
    · exact alt1Host_isSome_A0 hL1 hne htok
    · exact alt1Host_isSome_A1 hL1 hne htok
  · subst hw1
    have hwp : wwwDot.isPrefixOf L1 = true := (isPrefixOfE _ _).mpr ⟨_, hL1⟩
    have hdr : L1.drop 4 = hh ++ (pathS ++ (tok ++ rr)) := by
      have h4 : wwwDot.length = 4 := rfl
      rw [← h4]
      exact dropOfAppend hL1
    have hsome : (alt1Host (L1.drop 4)).isSome = true := by
      rw [hdr]
      rcases hhost with h | h <;> subst h
      · exact alt1Host_isSome_A0 rfl hne htok
      · exact alt1Host_isSome_A1 rfl hne htok
    obtain ⟨m, hm⟩ := Option.isSome_iff_exists.mp hsome
    rw [withWWW_some_www hwp hm]
    rfl

theorem www_alt2_isSome {w tok rr L1 : List Char}
    (hw : isWWWL w)
    (hL1 : w ++ (hostB ++ (pathS ++ (tok ++ rr))) = L1) (hne : tok ≠ [])
    (htok : ∀ c ∈ tok, tokenChar c = true) :
    (withWWW alt2Host L1).isSome = true := by
  rcases hw with hw0 | hw1
  · subst hw0
    rw [List.nil_append] at hL1
    have hnw : wwwDot.isPrefixOf L1 = false :=
      noStart wwwDot 1 hL1 (by decide) (by decide) (by decide)
    rw [withWWW_no_www hnw]
    exact alt2Host_isSome hL1 hne htok
  · subst hw1
    have hwp : wwwDot.isPrefixOf L1 = true := (isPrefixOfE _ _).mpr ⟨_, hL1⟩
    have hdr : L1.drop 4 = hostB ++ (pathS ++ (tok ++ rr)) := by
      have h4 : wwwDot.length = 4 := rfl
      rw [← h4]
      exact dropOfAppend hL1
    have hsome : (alt2Host (L1.drop 4)).isSome = true := by
      rw [hdr]
      exact alt2Host_isSome rfl hne htok
    obtain ⟨m, hm⟩ := Option.isSome_iff_exists.mp hsome
    rw [withWWW_some_www hwp hm]
    rfl

theorem www_alt1_none {w X L1 : List Char}
    (hw : isWWWL w) (hL1 : w ++ (hostB ++ X) = L1) :
    withWWW alt1Host L1 = none := by
  rcases hw with hw0 | hw1
  · subst hw0
    rw [List.nil_append] at hL1
    have hnw : wwwDot.isPrefixOf L1 = false :=
      noStart wwwDot 1 hL1 (by decide) (by decide) (by decide)
    rw [withWWW_no_www hnw]
    exact alt1Host_none_hostB hL1
  · subst hw1
    have hdr : L1.drop 4 = hostB ++ X := by
      have h4 : wwwDot.length = 4 := rfl
      rw [← h4]
      exact dropOfAppend hL1
    apply withWWW_none
    · rw [hdr]
      exact alt1Host_none_hostB rfl
    · exact alt1Host_none_www hL1

theorem scheme_isSome {g : List Char → Option (List Char)}
    {sc L1 l : List Char} (hsc : isSchemeL sc) (hl : sc ++ L1 = l)
    (hg : (g L1).isSome = true) : (withScheme g l).isSome = true := by
  obtain ⟨m, hm⟩ := Option.isSome_iff_exists.mp hg
  rcases hsc with h | h
  · subst h
    have hsf : schemeHttps.isPrefixOf l = false :=
      noStart schemeHttps 5 hl (by decide) (by decide) (by decide)
    have hp : schemeHttp.isPrefixOf l = true := (isPrefixOfE _ _).mpr ⟨_, hl⟩
    have hdr : l.drop 7 = L1 := by
      have h7 : schemeHttp.length = 7 := rfl
      rw [← h7]
      exact dropOfAppend hl
    rw [withScheme_some_http hsf hp (by rw [hdr]; exact hm)]
    rfl
  · subst h
    have hs : schemeHttps.isPrefixOf l = true := (isPrefixOfE _ _).mpr ⟨_, hl⟩
    have hdr : l.drop 8 = L1 := by
      have h8 : schemeHttps.length = 8 := rfl
      rw [← h8]
      exact dropOfAppend hl
    rw [withScheme_some_https hs (by rw [hdr]; exact hm)]
    rfl

theorem scheme_none {g : List Char → Option (List Char)}
    {sc L1 l : List Char} (hsc : isSchemeL sc) (hl : sc ++ L1 = l)
    (hg : g L1 = none) : withScheme g l = none := by
  rcases hsc with h | h
  · subst h
    have hsf : schemeHttps.isPrefixOf l = false :=
      noStart schemeHttps 5 hl (by decide) (by decide) (by decide)
    have hp : schemeHttp.isPrefixOf l = true := (isPrefixOfE _ _).mpr ⟨_, hl⟩
    have hdr : l.drop 7 = L1 := by
      have h7 : schemeHttp.length = 7 := rfl
      rw [← h7]
      exact dropOfAppend hl
    exact withScheme_none_http hsf hp (by rw [hdr]; exact hg)
  · subst h
    have hs : schemeHttps.isPrefixOf l = true := (isPrefixOfE _ _).mpr ⟨_, hl⟩
    have hdr : l.drop 8 = L1 := by
      have h8 : schemeHttps.length = 8 := rfl
      rw [← h8]
      exact dropOfAppend hl
    exact withScheme_none_https hs (by rw [hdr]; exact hg)

theorem matchAt_isSome {t rr l : List Char} (hlink : isShareLinkL t)
    (hpre : t ++ rr = l) : (matchAt l).isSome = true := by
  obtain ⟨sc, w, hh, tok, hsc, hw, hhost, hne, htok, ht⟩ := hlink
  subst ht
  have hl : sc ++ (w ++ (hh ++ (pathS ++ (tok ++ rr)))) = l := by
    rw [← hpre]
    simp [List.append_assoc]
  rcases hhost with h0 | h1 | hB
  · have halt : (withWWW alt1Host (w ++ (hh ++ (pathS ++ (tok ++ rr))))).isSome
        = true := www_alt1_isSome hw (Or.inl h0) rfl hne htok
    obtain ⟨m, hm⟩ :=
      Option.isSome_iff_exists.mp (scheme_isSome hsc hl halt)
    simp [matchAt, hm]
  · have halt : (withWWW alt1Host (w ++ (hh ++ (pathS ++ (tok ++ rr))))).isSome
        = true := www_alt1_isSome hw (Or.inr h1) rfl hne htok
    obtain ⟨m, hm⟩ :=
      Option.isSome_iff_exists.mp (scheme_isSome hsc hl halt)
    simp [matchAt, hm]
  · subst hB
    have hnone : withScheme (withWWW alt1Host) l = none :=
      scheme_none hsc hl (www_alt1_none hw rfl)
    have halt : (withWWW alt2Host
        (w ++ (hostB ++ (pathS ++ (tok ++ rr))))).isSome = true :=
      www_alt2_isSome hw rfl hne htok
    obtain ⟨m, hm⟩ :=
      Option.isSome_iff_exists.mp (scheme_isSome hsc hl halt)
    simp [matchAt, hnone, hm]

theorem matchAt_nil : matchAt [] = none := by decide

theorem searchFrom_sound :
    ∀ (l m : List Char), searchFrom l = some m →
      ∃ i, matchAt (l.drop i) = some m ∧
        ∀ j, j < i → matchAt (l.drop j) = none := by
  intro l
  induction l with
  | nil => intro m h; exact Option.noConfusion h
  | cons c rest ih =>
    intro m h
    rw [searchFrom] at h
    cases hm : matchAt (c :: rest) with
    | some m' =>
      rw [hm] at h
      injection h with h
      subst h
      exact ⟨0, hm, fun j hj => absurd hj (Nat.not_lt_zero j)⟩
    | none =>
      rw [hm] at h
      obtain ⟨i, h1, h2⟩ := ih m h
      refine ⟨i + 1, by rwa [List.drop_succ_cons], ?_⟩
      intro j hj
      cases j with
      | zero => exact hm
      | succ j' =>
        rw [List.drop_succ_cons]
        exact h2 j' (Nat.lt_of_succ_lt_succ hj)

theorem searchFrom_none :
    ∀ (l : List Char), searchFrom l = none →
      ∀ i, matchAt (l.drop i) = none := by
  intro l
  induction l with
  | nil => intro _ i; rw [List.drop_nil]; exact matchAt_nil
  | cons c rest ih =>
    intro h i
    rw [searchFrom] at h
    cases hm : matchAt (c :: rest) with
    | some m' => rw [hm] at h; exact Option.noConfusion h
    | none =>
      rw [hm] at h
      cases i with
      | zero => exact hm
      | succ i' =>
        rw [List.drop_succ_cons]
        exact ih h i'

/-- Claim C5: when the input text contains a well-formed share link, the
extractor returns exactly the leftmost, maximal such link substring
unmodified; when it contains none, the extractor returns `None`. -/
theorem claim5_extractor :
    (∀ text link, extract_terabox_link text = some link →
      isShareLinkL link.data ∧ firstMaximalMatch text link) ∧
    (∀ text, extract_terabox_link text = none ↔ ¬ hasLinkSub text) := by
  constructor
  · intro text link h
    cases hs : searchFrom text.data with
    | none => rw [extract_terabox_link, hs] at h; exact Option.noConfusion h
    | some m =>
      rw [extract_terabox_link, hs] at h
      injection h with h
      subst h
      obtain ⟨i, hmi, hearlier⟩ := searchFrom_sound _ _ hs
      obtain ⟨hlink, rest, happ, hhead⟩ := matchAt_sound hmi
      have hile : i ≤ text.data.length := by
        by_contra hgt
        rw [Nat.not_le] at hgt
        rw [List.drop_eq_nil_iff.mpr (Nat.le_of_lt hgt), matchAt_nil]
          at hmi
        exact Option.noConfusion hmi
      have hlen : (text.data.take i).length = i := by
        rw [List.length_take]
        exact min_eq_left hile
      refine ⟨hlink, text.data.take i, rest, ?_, ?_, hhead⟩
      · show text.data = List.take i text.data ++ m ++ rest
        rw [List.append_assoc, happ, List.take_append_drop]
      · intro j hj t r hlt heq
        have hsm := matchAt_isSome hlt heq.symm
        rw [hearlier j (hlen ▸ hj)] at hsm
        exact Bool.noConfusion hsm
  · intro text
    constructor
    · intro h hsub
      obtain ⟨t, pre, post, hlt, heq⟩ := hsub
      have hsn : searchFrom text.data = none := by
        cases hs : searchFrom text.data with
        | none => rfl
        | some m =>
          rw [extract_terabox_link, hs] at h
          exact Option.noConfusion h
      have heq' : pre ++ (t ++ post) = text.data := by
        rw [← List.append_assoc]
        exact heq
      have hsm := matchAt_isSome hlt (dropOfAppend heq').symm
      rw [searchFrom_none _ hsn pre.length] at hsm
      exact Bool.noConfusion hsm
    · intro hno
      cases hs : searchFrom text.data with
      | none => rw [extract_terabox_link, hs]; rfl
      | some m =>
        exfalso
        obtain ⟨i, hmi, _⟩ := searchFrom_sound _ _ hs
        obtain ⟨hlink, rest, happ, _⟩ := matchAt_sound hmi
        refine hno ⟨m, text.data.take i, rest, hlink, ?_⟩
        rw [List.append_assoc, happ, List.take_append_drop]

theorem claim5_extractor_witness :
    isShareLinkL
      ("https://1024terabox.com/s/1lqQc8B3zvkwh5cqByDatog" : String).data ∧
    firstMaximalMatch
      "check this out https://1024terabox.com/s/1lqQc8B3zvkwh5cqByDatog thanks"
      "https://1024terabox.com/s/1lqQc8B3zvkwh5cqByDatog" :=
  claim5_extractor.1
    "check this out https://1024terabox.com/s/1lqQc8B3zvkwh5cqByDatog thanks"
    "https://1024terabox.com/s/1lqQc8B3zvkwh5cqByDatog" rfl

end Terabot
